import Mathlib

/-!
Verification of the TruthTube orchestration engine against its specification.

The definitions below are a shallow embedding of the Python sources:
  backend/app/api/routes.py        (ranking, summary, route-level control flow)
  backend/app/workflow/analysis.py (retry helper, Stage1 fan-out, Stage2 barrier,
                                    result assembly)
  backend/app/agents/originality.py (comparator agent, including its internal
                                    exception handling and omission filling)
  backend/app/services/youtube.py  (fetch aggregation)
  backend/app/models/schemas.py    (response data model)

LLM calls, network fetches and whole-task exceptions are modelled as explicit
oracle arguments (attempt-indexed `Except` outcomes), matching the view of the spec
of analyzers and the fetch source as opaque fallible collaborators.  Integer
scores are modelled as `Int` (the schema declares them `int`), and the float
arithmetic of the composite score is modelled exactly over `Rat`.
-/

namespace TruthTube

/-! ## Data model (schemas.py, youtube.py) -/

/-- `VideoData` from services/youtube.py: immutable fetched item. -/
structure VideoData where
  youtube_id : String
  title : String
  duration_seconds : Int
  thumbnail_url : Option String
  transcript : String
  word_count : Nat
deriving DecidableEq

/-- Schema `DensityResult` (schemas.py): the fields surfaced in the response. -/
structure DensityResult where
  score : Int
  facts_count : Int
  insights_per_minute : Rat
  key_facts : List String
deriving DecidableEq

/-- Workflow-side density payload: the dict produced inside the workflow also
carries a `summary` field (consumed by the originality input builder). -/
structure DensityPayload where
  score : Int
  facts_count : Int
  insights_per_minute : Rat
  key_facts : List String
  summary : String
deriving DecidableEq

/-- Schema `RedundancyResult` (schemas.py); same shape as the workflow dict. -/
structure RedundancyResult where
  score : Int
  filler_percentage : Rat
  repetition_percentage : Rat
  examples : List String
deriving DecidableEq

/-- Schema `TitleRelevanceResult` (schemas.py); same shape as the workflow dict. -/
structure TitleRelevanceResult where
  score : Int
  is_clickbait : Bool
  explanation : String
deriving DecidableEq

/-- Schema `OriginalityResult` (schemas.py); same shape as the workflow dict. -/
structure OriginalityResult where
  score : Int
  unique_aspects : List String
  common_with_others : List String
deriving DecidableEq

/-- Schema `VideoAnalysis` (schemas.py): the ranked item of the response. -/
structure VideoAnalysis where
  youtube_id : String
  title : String
  duration_seconds : Int
  thumbnail_url : Option String
  density : DensityResult
  redundancy : RedundancyResult
  title_relevance : TitleRelevanceResult
  originality : OriginalityResult
  overall_rank : Option Nat
  recommendation : Option String
deriving DecidableEq

/-! ## Aggregator / Ranker (routes.py `_rank_videos`) -/

/-- `score_video` inside `_rank_videos` (routes.py lines 145-152). -/
def compositeScore (a : VideoAnalysis) : Rat :=
  (a.density.score : Rat) * 0.3 +
  (100 - (a.redundancy.score : Rat)) * 0.25 +
  (a.title_relevance.score : Rat) * 0.2 +
  (a.originality.score : Rat) * 0.25

/-- Stable insertion of `x` (earlier in the original order than every element
of the list) into a list sorted descending by `f`: `x` moves past exactly the
elements with strictly larger key, so ties keep the first-seen element first.
This realises the semantics of Python `sorted(key, reverse=True)`. -/
def insertDescBy {α : Type} (f : α → Rat) (x : α) : List α → List α
  | [] => [x]
  | y :: ys => if f x < f y then y :: insertDescBy f x ys else x :: y :: ys

/-- Stable descending sort by key `f`, embedding
`sorted(analyses, key=score_video, reverse=True)` (routes.py line 155). -/
def sortDescBy {α : Type} (f : α → Rat) : List α → List α
  | [] => []
  | x :: xs => insertDescBy f x (sortDescBy f xs)

/-- Recommendation tier by rank (routes.py lines 160-165; emoji prefixes and
the apostrophe of the original strings are omitted). -/
def recommendationText (rank : Nat) : String :=
  if rank = 1 then "Best choice - highest quality content"
  else if rank = 2 then "Good alternative"
  else "Consider if other options do not meet your needs"

/-- One step of the rank-assignment loop body (routes.py lines 158-165). -/
def assignRank (rank : Nat) (a : VideoAnalysis) : VideoAnalysis :=
  { a with overall_rank := some rank, recommendation := some (recommendationText rank) }

/-- The `enumerate(sorted_analyses, start=1)` loop of `_rank_videos`. -/
def assignRanks : Nat → List VideoAnalysis → List VideoAnalysis
  | _, [] => []
  | r, a :: rest => assignRank r a :: assignRanks (r + 1) rest

/-- `_rank_videos` (routes.py lines 139-167). -/
def rankVideos (analyses : List VideoAnalysis) : List VideoAnalysis :=
  assignRanks 1 (sortDescBy compositeScore analyses)

/-- Forgets the two fields the ranking loop writes. -/
def stripRanking (a : VideoAnalysis) : VideoAnalysis :=
  { a with overall_rank := none, recommendation := none }

/-- The list `start, start+1, ..., start+count-1`. -/
def ranksFrom : Nat → Nat → List Nat
  | _, 0 => []
  | r, n + 1 => r :: ranksFrom (r + 1) n

/-- Tags each element with its 0-based position in the original list. -/
def withIndices {α : Type} : Nat → List α → List (Nat × α)
  | _, [] => []
  | i, a :: rest => (i, a) :: withIndices (i + 1) rest

/-- Index-refined order used to express stability of the sort: an earlier
output position must have a strictly larger key or, on a tie, a strictly
smaller original index. -/
def LexBefore (f : VideoAnalysis → Rat) (p q : Nat × VideoAnalysis) : Prop :=
  f q.2 < f p.2 ∨ (f p.2 = f q.2 ∧ p.1 < q.1)

/-! ## Lemmas about the stable descending sort -/

theorem insertDescBy_perm {α : Type} (f : α → Rat) (x : α) (l : List α) :
    (insertDescBy f x l).Perm (x :: l) := by
  induction l with
  | nil => exact List.Perm.refl _
  | cons y ys ih =>
    by_cases h : f x < f y
    · simp only [insertDescBy, if_pos h]
      exact (ih.cons y).trans (List.Perm.swap x y ys)
    · simp only [insertDescBy, if_neg h]
      exact List.Perm.refl _

theorem sortDescBy_perm {α : Type} (f : α → Rat) (l : List α) :
    (sortDescBy f l).Perm l := by
  induction l with
  | nil => exact List.Perm.refl _
  | cons x xs ih => exact (insertDescBy_perm f x _).trans (ih.cons x)

theorem mem_insertDescBy {α : Type} {f : α → Rat} {x y : α} {l : List α} :
    y ∈ insertDescBy f x l ↔ y = x ∨ y ∈ l := by
  simpa using (insertDescBy_perm f x l).mem_iff

theorem insertDescBy_pairwise {α : Type} (f : α → Rat) (x : α) {l : List α}
    (h : l.Pairwise (fun a b => f b ≤ f a)) :
    (insertDescBy f x l).Pairwise (fun a b => f b ≤ f a) := by
  induction l with
  | nil => simp [insertDescBy]
  | cons y ys ih =>
    rcases List.pairwise_cons.mp h with ⟨hy, hys⟩
    by_cases hxy : f x < f y
    · simp only [insertDescBy, if_pos hxy]
      refine List.pairwise_cons.mpr ⟨?_, ih hys⟩
      intro z hz
      rcases mem_insertDescBy.mp hz with rfl | hz2
      · exact le_of_lt hxy
      · exact hy z hz2
    · simp only [insertDescBy, if_neg hxy]
      refine List.pairwise_cons.mpr ⟨?_, h⟩
      intro z hz
      rcases List.mem_cons.mp hz with rfl | hz2
      · exact not_lt.mp hxy
      · exact le_trans (hy z hz2) (not_lt.mp hxy)

theorem sortDescBy_pairwise {α : Type} (f : α → Rat) (l : List α) :
    (sortDescBy f l).Pairwise (fun a b => f b ≤ f a) := by
  induction l with
  | nil => simp [sortDescBy]
  | cons x xs ih => exact insertDescBy_pairwise f x ih

theorem insertDescBy_map {α β : Type} (f : α → Rat) (g : β → α) (x : β) (l : List β) :
    (insertDescBy (fun b => f (g b)) x l).map g = insertDescBy f (g x) (l.map g) := by
  induction l with
  | nil => rfl
  | cons y ys ih =>
    by_cases h : f (g x) < f (g y)
    · simp [insertDescBy, h, ih]
    · simp [insertDescBy, h]

theorem sortDescBy_map {α β : Type} (f : α → Rat) (g : β → α) (l : List β) :
    (sortDescBy (fun b => f (g b)) l).map g = sortDescBy f (l.map g) := by
  induction l with
  | nil => rfl
  | cons x xs ih =>
    simp only [sortDescBy, List.map_cons]
    rw [insertDescBy_map, ih]

theorem lexBefore_le {f : VideoAnalysis → Rat} {p q : Nat × VideoAnalysis}
    (h : LexBefore f p q) : f q.2 ≤ f p.2 := by
  rcases h with h | ⟨h, _⟩
  · exact le_of_lt h
  · exact le_of_eq h.symm

theorem insertDescBy_lex (f : VideoAnalysis → Rat) (x : Nat × VideoAnalysis)
    {l : List (Nat × VideoAnalysis)}
    (hl : l.Pairwise (LexBefore f)) (hx : ∀ q ∈ l, x.1 < q.1) :
    (insertDescBy (fun p => f p.2) x l).Pairwise (LexBefore f) := by
  induction l with
  | nil => simp [insertDescBy]
  | cons y ys ih =>
    rcases List.pairwise_cons.mp hl with ⟨hy, hys⟩
    by_cases hxy : f x.2 < f y.2
    · simp only [insertDescBy]
      rw [if_pos hxy]
      refine List.pairwise_cons.mpr
        ⟨?_, ih hys (fun q hq => hx q (List.mem_cons_of_mem y hq))⟩
      intro z hz
      rcases mem_insertDescBy.mp hz with rfl | hz2
      · exact Or.inl hxy
      · exact hy z hz2
    · simp only [insertDescBy]
      rw [if_neg hxy]
      refine List.pairwise_cons.mpr ⟨?_, hl⟩
      intro z hz
      rcases List.mem_cons.mp hz with rfl | hz2
      · rcases lt_or_eq_of_le (not_lt.mp hxy) with hlt | heq
        · exact Or.inl hlt
        · exact Or.inr ⟨heq.symm, hx z (List.mem_cons_self z ys)⟩
      · have h1 : f z.2 ≤ f y.2 := lexBefore_le (hy z hz2)
        have h2 : f y.2 ≤ f x.2 := not_lt.mp hxy
        rcases lt_or_eq_of_le (le_trans h1 h2) with hlt | heq
        · exact Or.inl hlt
        · exact Or.inr ⟨heq.symm, hx z (List.mem_cons_of_mem y hz2)⟩

theorem sortDescBy_lex (f : VideoAnalysis → Rat) (l : List (Nat × VideoAnalysis))
    (h : l.Pairwise (fun p q => p.1 < q.1)) :
    (sortDescBy (fun p => f p.2) l).Pairwise (LexBefore f) := by
  induction l with
  | nil => simp [sortDescBy]
  | cons x xs ih =>
    rcases List.pairwise_cons.mp h with ⟨hx, hxs⟩
    simp only [sortDescBy]
    refine insertDescBy_lex f x (ih hxs) ?_
    intro q hq
    exact hx q ((sortDescBy_perm _ xs).mem_iff.mp hq)

/-! ## Lemmas about index tagging and rank assignment -/

theorem withIndices_fst_ge {α : Type} (l : List α) :
    ∀ (i : Nat) (q : Nat × α), q ∈ withIndices i l → i ≤ q.1 := by
  induction l with
  | nil => intro i q hq; simp [withIndices] at hq
  | cons a rest ih =>
    intro i q hq
    rcases List.mem_cons.mp hq with rfl | hq2
    · exact Nat.le_refl i
    · exact Nat.le_trans (Nat.le_succ i) (ih (i + 1) q hq2)

theorem withIndices_pairwise {α : Type} (l : List α) :
    ∀ i, (withIndices i l).Pairwise (fun p q => p.1 < q.1) := by
  induction l with
  | nil => intro i; simp [withIndices]
  | cons a rest ih =>
    intro i
    refine List.pairwise_cons.mpr ⟨?_, ih (i + 1)⟩
    intro q hq
    exact Nat.lt_of_lt_of_le (Nat.lt_succ_self i) (withIndices_fst_ge rest (i + 1) q hq)

theorem withIndices_map_snd {α : Type} (l : List α) :
    ∀ i, (withIndices i l).map Prod.snd = l := by
  induction l with
  | nil => intro i; rfl
  | cons a rest ih => intro i; simp [withIndices, ih]

theorem compositeScore_assignRank (k : Nat) (a : VideoAnalysis) :
    compositeScore (assignRank k a) = compositeScore a := rfl

theorem compositeScore_stripRanking (a : VideoAnalysis) :
    compositeScore (stripRanking a) = compositeScore a := rfl

theorem stripRanking_assignRank (k : Nat) (a : VideoAnalysis) :
    stripRanking (assignRank k a) = stripRanking a := rfl

theorem assignRanks_map_rank (l : List VideoAnalysis) :
    ∀ r, (assignRanks r l).map (fun a => a.overall_rank) = (ranksFrom r l.length).map some := by
  induction l with
  | nil => intro r; rfl
  | cons a rest ih => intro r; simp [assignRanks, ranksFrom, assignRank, ih]

theorem assignRanks_map_rec (l : List VideoAnalysis) :
    ∀ r, (assignRanks r l).map (fun a => a.recommendation)
      = (ranksFrom r l.length).map (fun k => some (recommendationText k)) := by
  induction l with
  | nil => intro r; rfl
  | cons a rest ih => intro r; simp [assignRanks, ranksFrom, assignRank, ih]

theorem assignRanks_map_strip (l : List VideoAnalysis) :
    ∀ r, (assignRanks r l).map stripRanking = l.map stripRanking := by
  induction l with
  | nil => intro r; rfl
  | cons a rest ih =>
    intro r
    simp only [assignRanks, List.map_cons, stripRanking_assignRank, ih]

theorem mem_assignRanks (l : List VideoAnalysis) :
    ∀ r y, y ∈ assignRanks r l → ∃ x, x ∈ l ∧ ∃ k, y = assignRank k x := by
  induction l with
  | nil => intro r y hy; simp [assignRanks] at hy
  | cons a rest ih =>
    intro r y hy
    rcases List.mem_cons.mp hy with rfl | hy2
    · exact ⟨a, List.mem_cons_self a rest, r, rfl⟩
    · rcases ih (r + 1) y hy2 with ⟨x, hx, k, hk⟩
      exact ⟨x, List.mem_cons_of_mem a hx, k, hk⟩

theorem assignRanks_pairwise_score (l : List VideoAnalysis) :
    ∀ r, l.Pairwise (fun a b => compositeScore b ≤ compositeScore a) →
      (assignRanks r l).Pairwise (fun a b => compositeScore b ≤ compositeScore a) := by
  induction l with
  | nil => intro r _; simp [assignRanks]
  | cons a rest ih =>
    intro r h
    rcases List.pairwise_cons.mp h with ⟨ha, hrest⟩
    refine List.pairwise_cons.mpr ⟨?_, ih (r + 1) hrest⟩
    intro z hz
    rcases mem_assignRanks rest (r + 1) z hz with ⟨x, hx, k, hk⟩
    rw [hk, compositeScore_assignRank, compositeScore_assignRank]
    exact ha x hx

theorem assignRanks_length (l : List VideoAnalysis) :
    ∀ r, (assignRanks r l).length = l.length := by
  induction l with
  | nil => intro r; rfl
  | cons a rest ih => intro r; simp [assignRanks, ih]

/-! ## Retry helper (analysis.py `with_retry`)

An analyzer or comparator call is an opaque fallible operation; it is modelled
as an attempt-indexed outcome function `Nat → Except String α`.  `with_retry`
makes `maxRetries + 1` total attempts and propagates the last error. -/

def withRetryAux {α : Type} (f : Nat → Except String α) : Nat → Nat → Except String α
  | i, 0 => f i
  | i, fuel + 1 =>
    match f i with
    | Except.ok a => Except.ok a
    | Except.error _ => withRetryAux f (i + 1) fuel

/-- `with_retry(func, max_retries=...)` (analysis.py lines 52-65). -/
def withRetry {α : Type} (f : Nat → Except String α) (maxRetries : Nat) : Except String α :=
  withRetryAux f 0 maxRetries

/-! ## Stage1 fan-out (analysis.py `analyze_single_video`, `analyze_videos_node`) -/

/-- The three per-item analyzer calls for one item, as attempt-indexed oracles. -/
structure AgentOutcomes where
  densityAttempt : Nat → Except String DensityPayload
  redundancyAttempt : Nat → Except String RedundancyResult
  titleAttempt : Nat → Except String TitleRelevanceResult

/-- Workflow density fallback (analysis.py line 114). -/
def densityFallback : DensityPayload := ⟨0, 0, 0, [], ""⟩

/-- Workflow redundancy fallback (analysis.py line 119). -/
def redundancyFallback : RedundancyResult := ⟨0, 10, 15, []⟩

/-- Workflow title fallback (analysis.py line 124). -/
def titleFallback : TitleRelevanceResult := ⟨0, false, "Analysis failed"⟩

/-- The per-item result dict built by `analyze_single_video`: the three Stage1
dimensions are always present; `originality` is attached later by the Stage2
node, hence `Option` here (mirroring the absent dict key). -/
structure StageResult where
  video : VideoData
  density : DensityPayload
  redundancy : RedundancyResult
  title : TitleRelevanceResult
  originality : Option OriginalityResult
  failed_agents : List String
deriving DecidableEq

/-- `analyze_single_video` (analysis.py lines 72-133): each dimension runs
through `with_retry` (maxRetries = 2); a terminal failure is replaced by the
canonical fallback and flagged in `failed_agents`. -/
def analyzeSingleVideo (video : VideoData) (oc : AgentOutcomes) : StageResult :=
  let d := withRetry oc.densityAttempt 2
  let r := withRetry oc.redundancyAttempt 2
  let t := withRetry oc.titleAttempt 2
  { video := video
    density := match d with | Except.ok v => v | Except.error _ => densityFallback
    redundancy := match r with | Except.ok v => v | Except.error _ => redundancyFallback
    title := match t with | Except.ok v => v | Except.error _ => titleFallback
    originality := none
    failed_agents :=
      (match d with | Except.ok _ => [] | Except.error _ => ["density"]) ++
      (match r with | Except.ok _ => [] | Except.error _ => ["redundancy"]) ++
      (match t with | Except.ok _ => [] | Except.error _ => ["title"]) }

/-- The loop of `analyze_videos_node` (analysis.py lines 148-160): a captured
whole-item exception (the `Except.error` case of the second component) drops
the item and records an error; a partial failure records an error but keeps
the item; otherwise the item is kept. -/
def analyzeVideosLoop : Nat → List (VideoData × Except String AgentOutcomes) →
    List StageResult × List String
  | _, [] => ([], [])
  | i, (_, Except.error e) :: rest =>
    let acc := analyzeVideosLoop (i + 1) rest
    (acc.1, ("Video " ++ toString i ++ " analysis failed: " ++ e) :: acc.2)
  | i, (v, Except.ok oc) :: rest =>
    let r := analyzeSingleVideo v oc
    let acc := analyzeVideosLoop (i + 1) rest
    if r.failed_agents = [] then (r :: acc.1, acc.2)
    else (r :: acc.1, ("Video " ++ toString i ++ " partial failure") :: acc.2)

/-- `analyze_videos_node` (analysis.py lines 136-168). -/
def analyzeVideosNode (pairs : List (VideoData × Except String AgentOutcomes))
    (errors0 : List String) : List StageResult × List String :=
  let acc := analyzeVideosLoop 0 pairs
  (acc.1, errors0 ++ acc.2)

/-! ## Stage2 comparator (agents/originality.py and analysis.py `originality_node`) -/

/-- One entry of the `originality_input` list (analysis.py lines 193-201). -/
structure OrigInput where
  video_id : String
  title : String
  transcript : String
  summary : String
deriving DecidableEq

/-- One per-video entry of the parsed comparator LLM response; every field is
optional raw external data (`dict.get` with defaults in the source). -/
structure OrigLLMVideo where
  video_id : Option String
  originality_score : Option Int
  unique_aspects : Option (List String)
  common_with_others : Option (List String)
deriving DecidableEq

/-- The parsed comparator LLM response (`result.get("videos", [])`). -/
structure OrigLLMResult where
  videos : List OrigLLMVideo
deriving DecidableEq

/-- Python dict insertion (last write wins) for string-keyed originality maps. -/
def dictInsert (m : List (String × OriginalityResult)) (k : String)
    (v : OriginalityResult) : List (String × OriginalityResult) :=
  match m with
  | [] => [(k, v)]
  | (k2, v2) :: rest => if k2 = k then (k2, v) :: rest else (k2, v2) :: dictInsert rest k v

/-- Python dict lookup for string-keyed originality maps. -/
def lookupId (k : String) : List (String × OriginalityResult) → Option OriginalityResult
  | [] => none
  | (k2, v) :: rest => if k2 = k then some v else lookupId k rest

/-- Parsing loop of `OriginalityAgent.analyze` (originality.py lines 105-113). -/
def parseOrigVideos (vs : List OrigLLMVideo) : List (String × OriginalityResult) :=
  vs.foldl
    (fun m vd => dictInsert m (vd.video_id.getD "")
      ⟨vd.originality_score.getD 50, vd.unique_aspects.getD [], vd.common_with_others.getD []⟩)
    []

/-- Omission-filling loop of `OriginalityAgent.analyze` (originality.py
lines 115-124): every input id the LLM response omitted gets score 50 with
empty aspect lists. -/
def fillMissing (videos : List OrigInput) (m : List (String × OriginalityResult)) :
    List (String × OriginalityResult) :=
  videos.foldl
    (fun m2 v =>
      match lookupId v.video_id m2 with
      | some _ => m2
      | none => dictInsert m2 v.video_id ⟨50, [], []⟩)
    m

/-- `OriginalityAgent.analyze` (originality.py lines 52-145): total in its LLM
outcome — an LLM failure is caught internally and every input id receives the
score-50 fallback whose unique aspects read "Analysis failed". -/
def agentAnalyzeOriginality (videos : List OrigInput) (llm : Except String OrigLLMResult) :
    List (String × OriginalityResult) :=
  if videos.length < 2 then
    match videos with
    | [] => []
    | v :: _ => [(v.video_id, ⟨70, ["Only video in comparison"], []⟩)]
  else
    match llm with
    | Except.error _ => videos.map (fun v => (v.video_id, ⟨50, ["Analysis failed"], []⟩))
    | Except.ok res => fillMissing videos (parseOrigVideos res.videos)

/-- Single-item originality fallback (analysis.py lines 183-187). -/
def singleVideoOriginality : OriginalityResult :=
  ⟨100, ["Single video - no comparison available"], []⟩

/-- Fallback for an id the comparator mapping omits (analysis.py lines 212-216). -/
def comparatorOmittedFallback : OriginalityResult := ⟨50, [], []⟩

/-- The `originality_input` builder (analysis.py lines 193-201). -/
def origInputOf (rs : List StageResult) : List OrigInput :=
  rs.map (fun r => ⟨r.video.youtube_id, r.video.title, r.video.transcript, r.density.summary⟩)

/-- The attachment loop body of `originality_node` (analysis.py lines 210-216):
`originality_results.get(video_id, score-50 fallback)`. -/
def attachOriginality (mapping : List (String × OriginalityResult)) (r : StageResult) :
    StageResult :=
  { r with originality := some ((lookupId r.video.youtube_id mapping).getD comparatorOmittedFallback) }

/-- `originality_node` (analysis.py lines 171-218).  The comparator call is an
attempt-indexed oracle run through `with_retry` (maxRetries = 2); the node has
no exception handler, so an exhausted retry propagates as `Except.error`.
Fewer than two surviving items skip the comparator entirely.  The error list
is passed through unchanged in every successful branch. -/
def originalityNode (results : List StageResult) (errors : List String)
    (comparatorAttempt : Nat → Except String (List (String × OriginalityResult))) :
    Except String (List StageResult × List String) :=
  if results.length < 2 then
    Except.ok (results.map (fun r => { r with originality := some singleVideoOriginality }), errors)
  else
    match withRetry comparatorAttempt 2 with
    | Except.error e => Except.error e
    | Except.ok mapping => Except.ok (results.map (attachOriginality mapping), errors)

/-! ## Result assembly (analysis.py `build_results_node`, routes.py) -/

/-- `VideoAnalysisResult` (analysis.py lines 28-37). -/
structure VideoAnalysisResult where
  video_id : String
  title : String
  duration_seconds : Int
  thumbnail_url : Option String
  density : DensityPayload
  redundancy : RedundancyResult
  title_relevance : TitleRelevanceResult
  originality : OriginalityResult
deriving DecidableEq

/-- One iteration of `build_results_node` (analysis.py lines 227-239): reading
the `originality` key of a dict that lacks it raises, modelled as `none`. -/
def buildOne (r : StageResult) : Option VideoAnalysisResult :=
  match r.originality with
  | none => none
  | some o =>
    some ⟨r.video.youtube_id, r.video.title, r.video.duration_seconds,
      r.video.thumbnail_url, r.density, r.redundancy, r.title, o⟩

/-- `build_results_node` (analysis.py lines 221-243). -/
def buildResultsNode : List StageResult → Option (List VideoAnalysisResult)
  | [] => some []
  | r :: rest =>
    match buildOne r, buildResultsNode rest with
    | some a, some tail => some (a :: tail)
    | _, _ => none

/-- The full workflow (`run_analysis_workflow`): Stage1 fan-out, Stage2
barrier, result assembly.  Only the analyses are returned to the route; the
accumulated error list is kept here to state what the code does with it. -/
def runWorkflow (pairs : List (VideoData × Except String AgentOutcomes))
    (comparatorAttempt : Nat → Except String (List (String × OriginalityResult))) :
    Except String (Option (List VideoAnalysisResult) × List String) :=
  let s1 := analyzeVideosNode pairs []
  match originalityNode s1.1 s1.2 comparatorAttempt with
  | Except.error e => Except.error e
  | Except.ok s2 => Except.ok (buildResultsNode s2.1, s2.2)

/-- `_build_video_analyses` (routes.py lines 101-136): workflow dicts become
schema objects; the rank fields start unset. -/
def buildVideoAnalyses (ws : List VideoAnalysisResult) : List VideoAnalysis :=
  ws.map (fun w =>
    { youtube_id := w.video_id
      title := w.title
      duration_seconds := w.duration_seconds
      thumbnail_url := w.thumbnail_url
      density := ⟨w.density.score, w.density.facts_count,
        w.density.insights_per_minute, w.density.key_facts⟩
      redundancy := w.redundancy
      title_relevance := w.title_relevance
      originality := w.originality
      overall_rank := none
      recommendation := none })

/-! ## Route level (routes.py `analyze_videos`, services/youtube.py) -/

/-- The outcome of `get_video_data` for one locator: an exception, no data, or
a fetched item (`get_multiple_video_data`, youtube.py lines 230-255). -/
def getMultipleVideoData : List (Except String (Option VideoData)) → List VideoData
  | [] => []
  | Except.ok (some v) :: rest => v :: getMultipleVideoData rest
  | _ :: rest => getMultipleVideoData rest

/-- The HTTP failure modes of the route: the 400 insufficient-items rejection
and the 500 wrapper around any other escaped exception. -/
inductive RouteError where
  | badRequest (detail : String)
  | internalError (detail : String)
deriving DecidableEq

/-- `AnalyzeResponse` (schemas.py): ranked items plus a summary string.  The
session id and timestamp are omitted; the schema has no field for errors. -/
structure AnalyzeResponse where
  videos : List VideoAnalysis
  summary : String
deriving DecidableEq

/-- Config default `min_videos_per_request` (config.py line 32). -/
def min_videos_per_request : Nat := 1

/-- `_generate_summary` (routes.py lines 170-181; the 50-character title
truncation and quoting are omitted). -/
def generateSummary (ranked : List VideoAnalysis) : String :=
  match ranked with
  | [] => "No videos were analyzed."
  | best :: _ =>
    "Analyzed " ++ toString ranked.length ++ " videos. Top recommendation: " ++
    best.title ++ " with density score " ++ toString best.density.score ++
    "/100 and originality score " ++ toString best.originality.score ++ "/100."

/-- `analyze_videos` (routes.py lines 47-98): fetch, minimum-count gate,
workflow, assembly, ranking, summary.  An error escaping the workflow is
wrapped as a 500 internal error by the generic handler. -/
def analyzeVideosRoute (minVideos : Nat)
    (fetchOutcomes : List (Except String (Option VideoData)))
    (agentsFor : VideoData → Except String AgentOutcomes)
    (comparatorAttempt : Nat → Except String (List (String × OriginalityResult))) :
    Except RouteError AnalyzeResponse :=
  let vids := getMultipleVideoData fetchOutcomes
  if vids.length < minVideos then
    Except.error (RouteError.badRequest "Could not fetch data for enough videos")
  else
    match runWorkflow (vids.map (fun v => (v, agentsFor v))) comparatorAttempt with
    | Except.error e => Except.error (RouteError.internalError e)
    | Except.ok (none, _) => Except.error (RouteError.internalError "missing dimension entry")
    | Except.ok (some ws, _) =>
      let ranked := rankVideos (buildVideoAnalyses ws)
      Except.ok ⟨ranked, generateSummary ranked⟩

/-! ## Concrete fixtures used by scenario claims and witnesses -/

def vdA : VideoData := ⟨"vidA", "Title A", 300, none, "transcript a", 2⟩

def vdB : VideoData := ⟨"vidB", "Title B", 240, none, "transcript b", 2⟩

def okDensity : DensityPayload := ⟨80, 5, 2, ["fact one"], "summary a"⟩

def okRedundancy : RedundancyResult := ⟨20, 5, 5, []⟩

def okTitle : TitleRelevanceResult := ⟨90, false, "relevant"⟩

def agentsAllOk : AgentOutcomes :=
  ⟨fun _ => Except.ok okDensity, fun _ => Except.ok okRedundancy, fun _ => Except.ok okTitle⟩

def agentsDensityFailing : AgentOutcomes :=
  ⟨fun _ => Except.error "density agent raised",
   fun _ => Except.ok okRedundancy, fun _ => Except.ok okTitle⟩

def srA : StageResult := ⟨vdA, okDensity, okRedundancy, okTitle, none, []⟩

def srB : StageResult := ⟨vdB, okDensity, okRedundancy, okTitle, none, []⟩

/-- Scenario B item 1: density 80, redundancy 20, title 90, originality 70. -/
def scenarioB1 : VideoAnalysis :=
  ⟨"b1", "B1", 60, none, ⟨80, 0, 0, []⟩, ⟨20, 0, 0, []⟩, ⟨90, false, ""⟩, ⟨70, [], []⟩, none, none⟩

/-- Scenario B item 2: density 60, redundancy 30, title 70, originality 60. -/
def scenarioB2 : VideoAnalysis :=
  ⟨"b2", "B2", 60, none, ⟨60, 0, 0, []⟩, ⟨30, 0, 0, []⟩, ⟨70, false, ""⟩, ⟨60, [], []⟩, none, none⟩

/-- Scenario B item 3: density 40, redundancy 10, title 50, originality 90. -/
def scenarioB3 : VideoAnalysis :=
  ⟨"b3", "B3", 60, none, ⟨40, 0, 0, []⟩, ⟨10, 0, 0, []⟩, ⟨50, false, ""⟩, ⟨90, [], []⟩, none, none⟩

/-! ## Workflow helper lemmas -/

theorem withRetryAux_error {α : Type} (f : Nat → Except String α)
    (h : ∀ i, ∃ e, f i = Except.error e) :
    ∀ fuel i, ∃ e, withRetryAux f i fuel = Except.error e := by
  intro fuel
  induction fuel with
  | zero => intro i; exact h i
  | succ fuel ih =>
    intro i
    rcases h i with ⟨e, he⟩
    simpa [withRetryAux, he] using ih (i + 1)

theorem withRetry_error {α : Type} (f : Nat → Except String α)
    (h : ∀ i, ∃ e, f i = Except.error e) (m : Nat) :
    ∃ e, withRetry f m = Except.error e :=
  withRetryAux_error f h m 0

theorem withRetry_const_ok {α : Type} (v : α) (m : Nat) :
    withRetry (fun _ => Except.ok v) m = Except.ok v := by
  cases m <;> rfl

theorem withRetryAux_const_error {α : Type} (e : String) :
    ∀ (m i : Nat), withRetryAux (fun _ => (Except.error e : Except String α)) i m
      = Except.error e := by
  intro m
  induction m with
  | zero => intro i; rfl
  | succ m ih => intro i; simpa [withRetryAux] using ih (i + 1)

theorem withRetry_const_error {α : Type} (e : String) (m : Nat) :
    withRetry (fun _ => (Except.error e : Except String α)) m = Except.error e :=
  withRetryAux_const_error e m 0

theorem analyzeSingleVideo_density_failed (video : VideoData) (oc : AgentOutcomes)
    (h : ∀ i, ∃ e, oc.densityAttempt i = Except.error e) :
    (analyzeSingleVideo video oc).density = densityFallback ∧
      "density" ∈ (analyzeSingleVideo video oc).failed_agents := by
  rcases withRetryAux_error oc.densityAttempt h 2 0 with ⟨e, he⟩
  have hw : withRetry oc.densityAttempt 2 = Except.error e := he
  constructor
  · simp [analyzeSingleVideo, hw]
  · simp [analyzeSingleVideo, hw]

theorem mem_analyzeVideosLoop (v : VideoData) (oc : AgentOutcomes) :
    ∀ (pairs : List (VideoData × Except String AgentOutcomes)) (i : Nat),
      (v, Except.ok oc) ∈ pairs →
      analyzeSingleVideo v oc ∈ (analyzeVideosLoop i pairs).1 := by
  intro pairs
  induction pairs with
  | nil => intro i h; simp at h
  | cons p rest ih =>
    intro i h
    obtain ⟨v2, out2⟩ := p
    rcases List.mem_cons.mp h with heq | hmem
    · obtain ⟨rfl, rfl⟩ := Prod.mk.injEq .. ▸ And.intro (congrArg Prod.fst heq) (congrArg Prod.snd heq)
      simp only [analyzeVideosLoop]
      split
      · exact List.mem_cons_self _ _
      · exact List.mem_cons_self _ _
    · cases out2 with
      | error e =>
        simpa [analyzeVideosLoop] using ih (i + 1) hmem
      | ok oc2 =>
        have := ih (i + 1) hmem
        simp only [analyzeVideosLoop]
        split
        · exact List.mem_cons_of_mem _ this
        · exact List.mem_cons_of_mem _ this

theorem mem_analyzeVideosNode (v : VideoData) (oc : AgentOutcomes)
    (pairs : List (VideoData × Except String AgentOutcomes)) (errors0 : List String)
    (h : (v, Except.ok oc) ∈ pairs) :
    analyzeSingleVideo v oc ∈ (analyzeVideosNode pairs errors0).1 :=
  mem_analyzeVideosLoop v oc pairs 0 h

theorem attachOriginality_ne_none (m : List (String × OriginalityResult)) (r : StageResult) :
    (attachOriginality m r).originality ≠ none := by
  simp [attachOriginality]

theorem originalityNode_single (results : List StageResult) (errors : List String)
    (h1 : results.length < 2)
    (c : Nat → Except String (List (String × OriginalityResult))) :
    originalityNode results errors c =
      Except.ok (results.map (fun r => { r with originality := some singleVideoOriginality }),
        errors) := by
  simp [originalityNode, if_pos h1]

theorem originalityNode_multi_ok (results : List StageResult) (errors : List String)
    (mapping : List (String × OriginalityResult)) (h2 : ¬ results.length < 2) :
    originalityNode results errors (fun _ => Except.ok mapping) =
      Except.ok (results.map (attachOriginality mapping), errors) := by
  simp [originalityNode, if_neg h2, withRetry_const_ok]

theorem originalityNode_ok_shape (results : List StageResult) (errors : List String)
    (c : Nat → Except String (List (String × OriginalityResult)))
    (rs2 : List StageResult) (es2 : List String)
    (h : originalityNode results errors c = Except.ok (rs2, es2)) :
    es2 = errors ∧ ∀ r ∈ rs2, r.originality ≠ none := by
  unfold originalityNode at h
  by_cases h1 : results.length < 2
  · rw [if_pos h1] at h
    obtain ⟨h3, h4⟩ := Prod.mk.injEq .. ▸ Except.ok.inj h
    refine ⟨h4.symm, ?_⟩
    intro r hr
    rw [← h3] at hr
    rcases List.mem_map.mp hr with ⟨x, _, rfl⟩
    simp
  · rw [if_neg h1] at h
    cases hw : withRetry c 2 with
    | error e => rw [hw] at h; exact absurd h (by simp)
    | ok mapping =>
      rw [hw] at h
      obtain ⟨h3, h4⟩ := Prod.mk.injEq .. ▸ Except.ok.inj h
      refine ⟨h4.symm, ?_⟩
      intro r hr
      rw [← h3] at hr
      rcases List.mem_map.mp hr with ⟨x, _, rfl⟩
      exact attachOriginality_ne_none mapping x

theorem buildResultsNode_total (rs : List StageResult)
    (h : ∀ r ∈ rs, r.originality ≠ none) :
    ∃ l, buildResultsNode rs = some l := by
  induction rs with
  | nil => exact ⟨[], rfl⟩
  | cons r rest ih =>
    obtain ⟨l, hl⟩ := ih (fun x hx => h x (List.mem_cons_of_mem r hx))
    cases ho : r.originality with
    | none => exact absurd ho (h r (List.mem_cons_self r rest))
    | some o =>
      refine ⟨⟨r.video.youtube_id, r.video.title, r.video.duration_seconds,
        r.video.thumbnail_url, r.density, r.redundancy, r.title, o⟩ :: l, ?_⟩
      simp [buildResultsNode, buildOne, ho, hl]

theorem lookupId_map_const {α : Type} (key : α → String) (c : OriginalityResult)
    (l : List α) (x : α) (hx : x ∈ l) :
    lookupId (key x) (l.map (fun a => (key a, c))) = some c := by
  induction l with
  | nil => simp at hx
  | cons a rest ih =>
    rcases List.mem_cons.mp hx with rfl | hx2
    · simp [lookupId]
    · by_cases h : key a = key x
      · simp [lookupId, h]
      · simp [lookupId, h, ih hx2]

theorem map_congr_mem {α β : Type} (f g : α → β) (l : List α)
    (h : ∀ a ∈ l, f a = g a) : l.map f = l.map g := by
  induction l with
  | nil => rfl
  | cons a rest ih =>
    simp only [List.map_cons, h a (List.mem_cons_self a rest)]
    rw [ih (fun x hx => h x (List.mem_cons_of_mem a hx))]

/-- Evaluation of the ranker on the Scenario B items: composites are
79.5, 64.5 and 67, so the order is item1, item3, item2. -/
theorem rankVideos_scenarioB :
    rankVideos [scenarioB1, scenarioB2, scenarioB3]
      = [assignRank 1 scenarioB1, assignRank 2 scenarioB3, assignRank 3 scenarioB2] := by
  have hc23 : compositeScore scenarioB2 < compositeScore scenarioB3 := by
    norm_num [compositeScore, scenarioB2, scenarioB3]
  have hc13 : ¬ compositeScore scenarioB1 < compositeScore scenarioB3 := by
    norm_num [compositeScore, scenarioB1, scenarioB3]
  norm_num [rankVideos, sortDescBy, insertDescBy, hc23, hc13, assignRanks]

/-- The sortedness of the final ranked output, as a pairwise statement. -/
theorem rankVideos_pairwise (xs : List VideoAnalysis) :
    (rankVideos xs).Pairwise (fun a b => compositeScore b ≤ compositeScore a) := by
  rw [rankVideos]
  exact assignRanks_pairwise_score _ 1 (sortDescBy_pairwise compositeScore xs)

/-! ## Claims -/

/-- C1: the composite score used for ranking is exactly
density*0.30 + (100 - redundancy)*0.25 + title_relevance*0.20 + originality*0.25
(redundancy inverted, the others direct), and on the Scenario B items
(density [80,60,40], redundancy [20,30,10], title [90,70,50],
originality [70,60,90]) the composites are 79.5, 64.5 and 67, so the rank
order is item1 (rank 1, best-choice tier), item3 (rank 2, good-alternative
tier), item2 (rank 3, consider-tier), fully determined by the formula. -/
theorem composite_formula_and_scenarioB :
    (∀ a : VideoAnalysis,
      compositeScore a = (a.density.score : Rat) * 0.30 +
        (100 - (a.redundancy.score : Rat)) * 0.25 +
        (a.title_relevance.score : Rat) * 0.20 +
        (a.originality.score : Rat) * 0.25)
    ∧ compositeScore scenarioB1 = 79.5
    ∧ compositeScore scenarioB2 = 64.5
    ∧ compositeScore scenarioB3 = 67
    ∧ rankVideos [scenarioB1, scenarioB2, scenarioB3]
        = [assignRank 1 scenarioB1, assignRank 2 scenarioB3, assignRank 3 scenarioB2] := by
  refine ⟨?_, ?_, ?_, ?_, rankVideos_scenarioB⟩
  · intro a; norm_num [compositeScore]
  · norm_num [compositeScore, scenarioB1]
  · norm_num [compositeScore, scenarioB2]
  · norm_num [compositeScore, scenarioB3]

/-- C2: the ranker sorts by composite descending with ties broken by the
original input order (formalised by the index-tagged sort: tagging each input
with its position and sorting places strictly-larger composites first and, on
ties, strictly smaller original indices first, and untagging gives exactly the
list the ranker sorts); the assigned ranks are exactly 1..len(output) in
order (dense, 1-based, no duplicates or gaps), and the recommendation of the
item ranked k is the tier text for k: rank 1 the best-choice tier, rank 2 the
good-alternative tier, every rank at least 3 the consider-only tier. -/
theorem ranker_sorts_stable_dense_ranks_tiers (xs : List VideoAnalysis) :
    ((rankVideos xs).map (fun a => a.overall_rank) = (ranksFrom 1 xs.length).map some)
    ∧ ((rankVideos xs).map (fun a => a.recommendation)
        = (ranksFrom 1 xs.length).map (fun k => some (recommendationText k)))
    ∧ (rankVideos xs).Pairwise (fun a b => compositeScore b ≤ compositeScore a)
    ∧ ((sortDescBy (fun p => compositeScore p.2) (withIndices 0 xs)).map Prod.snd
        = sortDescBy compositeScore xs)
    ∧ (sortDescBy (fun p => compositeScore p.2) (withIndices 0 xs)).Pairwise
        (LexBefore compositeScore) := by
  refine ⟨?_, ?_, rankVideos_pairwise xs, ?_, ?_⟩
  · rw [rankVideos, assignRanks_map_rank, (sortDescBy_perm compositeScore xs).length_eq]
  · rw [rankVideos, assignRanks_map_rec, (sortDescBy_perm compositeScore xs).length_eq]
  · have h := sortDescBy_map compositeScore Prod.snd (withIndices 0 xs)
    rw [withIndices_map_snd xs 0] at h
    exact h
  · exact sortDescBy_lex compositeScore _ (withIndices_pairwise xs 0)

/-- C9: composite score is monotone in each dimension: for two items whose
dimension scores differ in exactly one dimension, the one with the higher
density, title-relevance or originality score (or the lower redundancy score)
has a composite score at least as high, and every occurrence of it in the
final ranked output sits at a strictly earlier position (hence a rank no
worse) than every occurrence of the other. -/
theorem composite_monotone_rank_no_worse (a b : VideoAnalysis)
    (h :
      (b.density.score < a.density.score ∧ a.redundancy.score = b.redundancy.score ∧
        a.title_relevance.score = b.title_relevance.score ∧
        a.originality.score = b.originality.score) ∨
      (a.density.score = b.density.score ∧ a.redundancy.score < b.redundancy.score ∧
        a.title_relevance.score = b.title_relevance.score ∧
        a.originality.score = b.originality.score) ∨
      (a.density.score = b.density.score ∧ a.redundancy.score = b.redundancy.score ∧
        b.title_relevance.score < a.title_relevance.score ∧
        a.originality.score = b.originality.score) ∨
      (a.density.score = b.density.score ∧ a.redundancy.score = b.redundancy.score ∧
        a.title_relevance.score = b.title_relevance.score ∧
        b.originality.score < a.originality.score)) :
    compositeScore b ≤ compositeScore a ∧
    ∀ (xs : List VideoAnalysis) (i j : Nat) (ai aj : VideoAnalysis),
      (rankVideos xs).get? i = some ai → (rankVideos xs).get? j = some aj →
      stripRanking ai = stripRanking a → stripRanking aj = stripRanking b → i < j := by
  have hlt : compositeScore b < compositeScore a := by
    rcases h with ⟨h1, h2, h3, h4⟩ | ⟨h1, h2, h3, h4⟩ | ⟨h1, h2, h3, h4⟩ | ⟨h1, h2, h3, h4⟩ <;>
      unfold compositeScore
    · rw [h2, h3, h4]
      have hc : (b.density.score : Rat) < a.density.score := by exact_mod_cast h1
      linarith
    · rw [h1, h3, h4]
      have hc : (a.redundancy.score : Rat) < b.redundancy.score := by exact_mod_cast h2
      linarith
    · rw [h1, h2, h4]
      have hc : (b.title_relevance.score : Rat) < a.title_relevance.score := by
        exact_mod_cast h3
      linarith
    · rw [h1, h2, h3]
      have hc : (b.originality.score : Rat) < a.originality.score := by exact_mod_cast h4
      linarith
  refine ⟨le_of_lt hlt, ?_⟩
  intro xs i j ai aj hgi hgj hsa hsb
  obtain ⟨hi, hgi2⟩ := List.get?_eq_some.mp hgi
  obtain ⟨hj, hgj2⟩ := List.get?_eq_some.mp hgj
  have hca : compositeScore ((rankVideos xs).get ⟨i, hi⟩) = compositeScore a := by
    rw [← compositeScore_stripRanking ((rankVideos xs).get ⟨i, hi⟩), hgi2, hsa,
      compositeScore_stripRanking]
  have hcb : compositeScore ((rankVideos xs).get ⟨j, hj⟩) = compositeScore b := by
    rw [← compositeScore_stripRanking ((rankVideos xs).get ⟨j, hj⟩), hgj2, hsb,
      compositeScore_stripRanking]
  by_contra hij
  push_neg at hij
  rcases Nat.lt_or_ge j i with hji | hge
  · have hs := (List.pairwise_iff_get.mp (rankVideos_pairwise xs)) ⟨j, hj⟩ ⟨i, hi⟩ hji
    rw [hca, hcb] at hs
    exact absurd hs (not_le.mpr hlt)
  · have hijeq : i = j := Nat.le_antisymm hge hij
    subst hijeq
    have hceq : compositeScore a = compositeScore b := by rw [← hca, ← hcb]
    exact absurd hceq (ne_of_gt hlt)

/-- C10: ranking returns a permutation of its input and touches only the
overall_rank and recommendation fields: stripping those two fields, the output
is a permutation of the input, and every output item is some input item with
only a rank assignment applied. -/
theorem rank_videos_frame_permutation (xs : List VideoAnalysis) :
    ((rankVideos xs).map stripRanking).Perm (xs.map stripRanking)
    ∧ ∀ y ∈ rankVideos xs, ∃ x, x ∈ xs ∧ ∃ k, y = assignRank k x := by
  constructor
  · rw [rankVideos, assignRanks_map_strip]
    exact (sortDescBy_perm compositeScore xs).map stripRanking
  · intro y hy
    rw [rankVideos] at hy
    rcases mem_assignRanks _ 1 y hy with ⟨x, hx, k, hk⟩
    exact ⟨x, (sortDescBy_perm compositeScore xs).mem_iff.mp hx, k, hk⟩

/-- Item with density 80, redundancy 20, title 90, originality 70. -/
def monoA : VideoAnalysis :=
  ⟨"mA", "MA", 60, none, ⟨80, 0, 0, []⟩, ⟨20, 0, 0, []⟩, ⟨90, false, ""⟩, ⟨70, [], []⟩, none, none⟩

/-- Same as `monoA` except a lower density score (60). -/
def monoB : VideoAnalysis :=
  ⟨"mB", "MB", 60, none, ⟨60, 0, 0, []⟩, ⟨20, 0, 0, []⟩, ⟨90, false, ""⟩, ⟨70, [], []⟩, none, none⟩

/-- Evaluation of the ranker on the monotonicity witness pair. -/
theorem rankVideos_mono_pair :
    rankVideos [monoB, monoA] = [assignRank 1 monoA, assignRank 2 monoB] := by
  have h : compositeScore monoB < compositeScore monoA := by
    norm_num [compositeScore, monoA, monoB]
  norm_num [rankVideos, sortDescBy, insertDescBy, h, assignRanks]

/-- Witness for C9 at a concrete pair differing only in density, ranked from
the worse-first input order. -/
theorem composite_monotone_rank_no_worse_witness :
    compositeScore monoB ≤ compositeScore monoA ∧ (0 : Nat) < 1 := by
  have key := composite_monotone_rank_no_worse monoA monoB
    (Or.inl ⟨by norm_num [monoA, monoB], rfl, rfl, rfl⟩)
  refine ⟨key.1, ?_⟩
  refine key.2 [monoB, monoA] 0 1 (assignRank 1 monoA) (assignRank 2 monoB) ?_ ?_ ?_ ?_
  · rw [rankVideos_mono_pair]
    rfl
  · rw [rankVideos_mono_pair]
    rfl
  · exact stripRanking_assignRank 1 monoA
  · exact stripRanking_assignRank 2 monoB

/-- Witness for C10 on a singleton input. -/
theorem rank_videos_frame_permutation_witness :
    ((rankVideos [scenarioB1]).map stripRanking).Perm ([scenarioB1].map stripRanking)
    ∧ ∃ x, x ∈ [scenarioB1] ∧ ∃ k, assignRank 1 scenarioB1 = assignRank k x := by
  have hmem : assignRank 1 scenarioB1 ∈ rankVideos [scenarioB1] := by
    have h : rankVideos [scenarioB1] = [assignRank 1 scenarioB1] := rfl
    rw [h]
    exact List.mem_cons_self _ _
  exact ⟨(rank_videos_frame_permutation [scenarioB1]).1,
    (rank_videos_frame_permutation [scenarioB1]).2 (assignRank 1 scenarioB1) hmem⟩

/-- C3: whatever the analyzer and comparator outcomes, every item that reaches
the final assembly carries an entry for all four dimensions: whenever the
workflow completes, the build step succeeds — no dimension key is ever
absent (each `VideoAnalysisResult` carries all four dimensions by type). -/
theorem output_dimensions_always_present
    (pairs : List (VideoData × Except String AgentOutcomes))
    (comparatorAttempt : Nat → Except String (List (String × OriginalityResult)))
    (res : Option (List VideoAnalysisResult)) (errs : List String)
    (h : runWorkflow pairs comparatorAttempt = Except.ok (res, errs)) :
    ∃ analyses, res = some analyses := by
  simp only [runWorkflow] at h
  cases hn : originalityNode (analyzeVideosNode pairs []).1 (analyzeVideosNode pairs []).2
      comparatorAttempt with
  | error e => rw [hn] at h; exact absurd h (by simp)
  | ok s2 =>
    rw [hn] at h
    obtain ⟨rs2, es2⟩ := s2
    obtain ⟨hres, _⟩ := Prod.mk.injEq .. ▸ Except.ok.inj h
    obtain ⟨_, hsome⟩ := originalityNode_ok_shape _ _ _ _ _ hn
    obtain ⟨l, hl⟩ := buildResultsNode_total rs2 hsome
    exact ⟨l, by rw [← hres, hl]⟩

/-- The workflow output item produced by the C3 witness run. -/
def c3OutputItem : VideoAnalysisResult :=
  ⟨"vidA", "Title A", 300, none, okDensity, okRedundancy, okTitle, singleVideoOriginality⟩

/-- Witness for C3: a concrete single-item run with all analyzers succeeding. -/
theorem output_dimensions_always_present_witness :
    ∃ analyses, (some [c3OutputItem] : Option (List VideoAnalysisResult)) = some analyses :=
  output_dimensions_always_present [(vdA, Except.ok agentsAllOk)] (fun _ => Except.ok [])
    (some [c3OutputItem]) [] rfl

/-- C4: if the density analyzer throws on every attempt (`with_retry` makes 3
total attempts with maxRetries 2), the density entry of the item equals the
canonical density fallback — score 0, empty facts and empty summary — the
dimension is flagged failed, and the item is still kept by the Stage1 node
(hence ranked) rather than dropped from the run. -/
theorem density_retry_exhaustion_canonical_fallback (video : VideoData) (oc : AgentOutcomes)
    (h : ∀ i, ∃ e, oc.densityAttempt i = Except.error e) :
    (analyzeSingleVideo video oc).density = ⟨0, 0, 0, [], ""⟩
    ∧ "density" ∈ (analyzeSingleVideo video oc).failed_agents
    ∧ ∀ (pairs : List (VideoData × Except String AgentOutcomes)) (errors0 : List String),
        (video, Except.ok oc) ∈ pairs →
        analyzeSingleVideo video oc ∈ (analyzeVideosNode pairs errors0).1 := by
  obtain ⟨hd, hf⟩ := analyzeSingleVideo_density_failed video oc h
  exact ⟨hd, hf, fun pairs errors0 hmem => mem_analyzeVideosNode video oc pairs errors0 hmem⟩

/-- Witness for C4: a concrete item whose density oracle always throws. -/
theorem density_retry_exhaustion_canonical_fallback_witness :
    (analyzeSingleVideo vdA agentsDensityFailing).density = ⟨0, 0, 0, [], ""⟩
    ∧ "density" ∈ (analyzeSingleVideo vdA agentsDensityFailing).failed_agents
    ∧ analyzeSingleVideo vdA agentsDensityFailing ∈
        (analyzeVideosNode [(vdA, Except.ok agentsDensityFailing)] []).1 := by
  obtain ⟨h1, h2, h3⟩ := density_retry_exhaustion_canonical_fallback vdA agentsDensityFailing
    (fun i => ⟨"density agent raised", rfl⟩)
  exact ⟨h1, h2, h3 [(vdA, Except.ok agentsDensityFailing)] [] (List.mem_cons_self _ _)⟩

/-- C5 counterexample: with two surviving items and a comparator whose call
fails on every attempt, `originality_node` propagates the error after
`with_retry` is exhausted — the run aborts instead of completing with
score-50 fallbacks and a recorded degradation. -/
theorem comparator_exhaustion_aborts_run_cex :
    originalityNode [srA, srB] [] (fun _ => Except.error "llm unavailable")
      = Except.error "llm unavailable"
    ∧ ∀ out, originalityNode [srA, srB] [] (fun _ => Except.error "llm unavailable")
        ≠ Except.ok out := by
  have h1 : originalityNode [srA, srB] [] (fun _ => Except.error "llm unavailable")
      = Except.error "llm unavailable" := rfl
  exact ⟨h1, fun out hout => Except.noConfusion (h1.symm.trans hout)⟩

/-- C5 amended: if the comparator call itself fails on every attempt the
error propagates out of the Stage2 node and the run aborts; the score-50
"Analysis failed" fallback for every surviving item arises only when the
internal comparator LLM call fails (caught inside the agent with no
retries), in which case the run completes but the error list is left
unchanged — the degradation is not recorded there. -/
theorem comparator_failure_modes (results : List StageResult) (errors : List String)
    (h2 : 2 ≤ results.length) :
    (∀ attempt : Nat → Except String (List (String × OriginalityResult)),
      (∀ i, ∃ e, attempt i = Except.error e) →
      ∃ e, originalityNode results errors attempt = Except.error e)
    ∧ ∀ msg, originalityNode results errors
        (fun _ => Except.ok (agentAnalyzeOriginality (origInputOf results) (Except.error msg)))
      = Except.ok (results.map (fun r => { r with originality := some ⟨50, ["Analysis failed"], []⟩ }), errors) := by
  have hnot : ¬ results.length < 2 := Nat.not_lt.mpr h2
  constructor
  · intro attempt hfail
    obtain ⟨e, he⟩ := withRetry_error attempt hfail 2
    exact ⟨e, by simp [originalityNode, if_neg hnot, he]⟩
  · intro msg
    have hlen : ¬ (origInputOf results).length < 2 := by
      simpa [origInputOf] using hnot
    have hagent : agentAnalyzeOriginality (origInputOf results) (Except.error msg)
        = results.map (fun r => (r.video.youtube_id, (⟨50, ["Analysis failed"], []⟩ : OriginalityResult))) := by
      rw [agentAnalyzeOriginality.eq_def, if_neg hlen]
      simp [origInputOf, List.map_map, Function.comp]
    have hmap : results.map (attachOriginality
        (results.map (fun r => (r.video.youtube_id, (⟨50, ["Analysis failed"], []⟩ : OriginalityResult)))))
        = results.map (fun r => { r with originality := some ⟨50, ["Analysis failed"], []⟩ }) := by
      apply map_congr_mem
      intro r hr
      simp [attachOriginality,
        lookupId_map_const (fun x : StageResult => x.video.youtube_id) _ results r hr]
    simp only [originalityNode, if_neg hnot, hagent, withRetry_const_ok, hmap]

/-- Witness for the amended C5 at a concrete two-item state. -/
theorem comparator_failure_modes_witness :
    (∃ e, originalityNode [srA, srB] [] (fun _ => Except.error "boom") = Except.error e)
    ∧ originalityNode [srA, srB] []
        (fun _ => Except.ok (agentAnalyzeOriginality (origInputOf [srA, srB]) (Except.error "llm failed")))
      = Except.ok ([{ srA with originality := some ⟨50, ["Analysis failed"], []⟩ },
          { srB with originality := some ⟨50, ["Analysis failed"], []⟩ }], []) := by
  obtain ⟨hA, hB⟩ := comparator_failure_modes [srA, srB] [] (by simp)
  exact ⟨hA (fun _ => Except.error "boom") (fun i => ⟨"boom", rfl⟩), hB "llm failed"⟩

/-- C6: with exactly one surviving item the Stage2 node never invokes the
comparator — its result is the same for every comparator oracle — and the
originality entry of the item is exactly the single-item fallback: score 100 with
the sentinel note that no comparison is available. -/
theorem single_item_comparator_skipped (results : List StageResult) (errors : List String)
    (h1 : results.length = 1) :
    (∀ c, originalityNode results errors c
      = Except.ok (results.map (fun r => { r with originality := some ⟨100, ["Single video - no comparison available"], []⟩ }), errors))
    ∧ ∀ c1 c2, originalityNode results errors c1 = originalityNode results errors c2 := by
  have hlt : results.length < 2 := by omega
  constructor
  · intro c
    exact originalityNode_single results errors hlt c
  · intro c1 c2
    rw [originalityNode_single results errors hlt c1, originalityNode_single results errors hlt c2]

/-- Witness for C6 on a concrete singleton state, with two different
comparator oracles. -/
theorem single_item_comparator_skipped_witness :
    originalityNode [srA] [] (fun _ => Except.error "never called")
      = Except.ok ([{ srA with originality := some ⟨100, ["Single video - no comparison available"], []⟩ }], [])
    ∧ originalityNode [srA] [] (fun _ => Except.error "x")
      = originalityNode [srA] [] (fun _ => Except.ok []) := by
  obtain ⟨h1, h2⟩ := single_item_comparator_skipped [srA] [] rfl
  exact ⟨h1 (fun _ => Except.error "never called"), h2 (fun _ => Except.error "x") (fun _ => Except.ok [])⟩

/-- C7: when the comparator is invoked with two or more surviving items and
its returned mapping omits some identifier of a surviving item, that item is
assigned the multi-item fallback — score 50 with empty unique and shared
aspect lists — and the node still succeeds (the omission never fails the
run). -/
theorem comparator_omission_fallback (results : List StageResult) (errors : List String)
    (mapping : List (String × OriginalityResult)) (r : StageResult)
    (h2 : 2 ≤ results.length) (hr : r ∈ results)
    (hmiss : lookupId r.video.youtube_id mapping = none) :
    ∃ rs2, originalityNode results errors (fun _ => Except.ok mapping) = Except.ok (rs2, errors)
      ∧ { r with originality := some ⟨50, [], []⟩ } ∈ rs2 := by
  refine ⟨results.map (attachOriginality mapping),
    originalityNode_multi_ok results errors mapping (Nat.not_lt.mpr h2), ?_⟩
  have hattach : attachOriginality mapping r = { r with originality := some ⟨50, [], []⟩ } := by
    simp [attachOriginality, hmiss, comparatorOmittedFallback]
  rw [← hattach]
  exact List.mem_map_of_mem _ hr

/-- Witness for C7: a concrete mapping that contains the id of the first item and
omits the id of the second item. -/
theorem comparator_omission_fallback_witness :
    ∃ rs2, originalityNode [srA, srB] []
        (fun _ => Except.ok [("vidA", ⟨80, ["unique"], ["shared"]⟩)]) = Except.ok (rs2, [])
      ∧ { srB with originality := some ⟨50, [], []⟩ } ∈ rs2 :=
  comparator_omission_fallback [srA, srB] [] [("vidA", ⟨80, ["unique"], ["shared"]⟩)] srB
    (by simp) (by simp) rfl

/-- Fetch outcomes with two successes and three failures (an exception, a
missing transcript, another exception). -/
def fetchBadOutcomes : List (Except String (Option VideoData)) :=
  [Except.ok (some vdA), Except.error "network down", Except.ok (some vdB),
   Except.ok none, Except.error "bad url"]

/-- Fetch outcomes with the same two successes and no failures. -/
def fetchGoodOutcomes : List (Except String (Option VideoData)) :=
  [Except.ok (some vdA), Except.ok (some vdB)]

/-- C8 counterexample: with minimum 2 and three of five fetches failing, the
run proceeds, but its result is identical to the run with no fetch failures
at all — the response records nothing about fetch failures (the schema has no
error field and the route drops the workflow error list); moreover the
insufficient-items rejection is not the only abort: an exhausted comparator
retry also aborts the run, as a 500 internal error. -/
theorem fetch_errors_unreported_and_other_abort_cex :
    (analyzeVideosRoute 2 fetchBadOutcomes (fun _ => Except.ok agentsAllOk) (fun _ => Except.ok [])
      = analyzeVideosRoute 2 fetchGoodOutcomes (fun _ => Except.ok agentsAllOk) (fun _ => Except.ok []))
    ∧ analyzeVideosRoute 2 fetchGoodOutcomes (fun _ => Except.ok agentsAllOk)
        (fun _ => Except.error "llm gone")
      = Except.error (RouteError.internalError "llm gone") :=
  ⟨rfl, rfl⟩

/-- C8 amended: if the number of successfully fetched items is below the
configured minimum the route rejects with the request-level 400 failure
before Stage1 begins (for every analyzer and comparator oracle); if at least
the minimum survive, the run proceeds with exactly the surviving items (its
result depends only on them) and never yields the request-level fetch
rejection — but fetch failures are not recorded alongside the output, and an
exhausted comparator retry also aborts the run (as an internal error). -/
theorem insufficient_items_gate (minVideos : Nat)
    (fetchOutcomes : List (Except String (Option VideoData)))
    (agentsFor : VideoData → Except String AgentOutcomes)
    (comparatorAttempt : Nat → Except String (List (String × OriginalityResult))) :
    ((getMultipleVideoData fetchOutcomes).length < minVideos →
      analyzeVideosRoute minVideos fetchOutcomes agentsFor comparatorAttempt
        = Except.error (RouteError.badRequest "Could not fetch data for enough videos"))
    ∧ (minVideos ≤ (getMultipleVideoData fetchOutcomes).length →
        (∀ fetch2, getMultipleVideoData fetch2 = getMultipleVideoData fetchOutcomes →
          analyzeVideosRoute minVideos fetch2 agentsFor comparatorAttempt
            = analyzeVideosRoute minVideos fetchOutcomes agentsFor comparatorAttempt)
        ∧ ∀ d, analyzeVideosRoute minVideos fetchOutcomes agentsFor comparatorAttempt
            ≠ Except.error (RouteError.badRequest d)) := by
  constructor
  · intro hlt
    simp [analyzeVideosRoute, if_pos hlt]
  · intro hge
    have hnot : ¬ (getMultipleVideoData fetchOutcomes).length < minVideos := Nat.not_lt.mpr hge
    constructor
    · intro fetch2 heq
      simp only [analyzeVideosRoute, heq]
    · intro d
      simp only [analyzeVideosRoute, if_neg hnot]
      cases hw : runWorkflow ((getMultipleVideoData fetchOutcomes).map (fun v => (v, agentsFor v)))
          comparatorAttempt with
      | error e => simp
      | ok p =>
        obtain ⟨o, errs2⟩ := p
        cases o with
        | none => simp
        | some ws => simp

/-- Witness for the amended C8, applied at a below-minimum input and at an
above-minimum input. -/
theorem insufficient_items_gate_witness :
    (analyzeVideosRoute 2 [Except.ok (some vdA)] (fun _ => Except.ok agentsAllOk)
        (fun _ => Except.ok [])
      = Except.error (RouteError.badRequest "Could not fetch data for enough videos"))
    ∧ (analyzeVideosRoute 2 fetchGoodOutcomes (fun _ => Except.ok agentsAllOk)
        (fun _ => Except.ok [])
      = analyzeVideosRoute 2 fetchBadOutcomes (fun _ => Except.ok agentsAllOk)
        (fun _ => Except.ok []))
    ∧ ∀ d, analyzeVideosRoute 2 fetchBadOutcomes (fun _ => Except.ok agentsAllOk)
        (fun _ => Except.ok []) ≠ Except.error (RouteError.badRequest d) := by
  have hpart2 := (insufficient_items_gate 2 fetchBadOutcomes (fun _ => Except.ok agentsAllOk)
    (fun _ => Except.ok [])).2 (by simp [fetchBadOutcomes, getMultipleVideoData, vdA, vdB])
  refine ⟨(insufficient_items_gate 2 [Except.ok (some vdA)] (fun _ => Except.ok agentsAllOk)
    (fun _ => Except.ok [])).1 (by simp [getMultipleVideoData, vdA]), ?_, hpart2.2⟩
  exact hpart2.1 fetchGoodOutcomes rfl

end TruthTube
